import Mathlib

set_option maxRecDepth 8000

/-!
Verification of the multi-stage task-generation orchestrator of the
`uketsuguAI` webhook handler.

This file is a shallow embedding of the Python sources under
`02_src/webhook-handler/`:

* `plan_controller.py`   — plan gate (task masking, ceilings);
* `rate_limiter.py`      — per-day request counter;
* `conversation_flow_manager.py` — conversation states and the
  generation-step tracker;
* `question_generator.py` — follow-up questions;
* `task_generator.py` / `task_personalizer.py` — basic / personalized
  task generation (the Gemini calls are modelled as an environment input
  `ai : Option (List Draft)`, `none` meaning the service raised);
* `main.py` — the message handler (`process_profile_collection`) and the
  two queue workers (`generate_tasks_worker`, `personalized_tasks_worker`).

All state is per owner: the Python code keys every table by `user_id` and
owners share no mutable state, so a `World` models one owner's rows.
Each `with engine.connect()` block of a worker commits separately; workers
are therefore modelled as small-step machines over numbered blocks, and an
explicit scheduler (`run`) interleaves message handling, queue deliveries
(at-least-once: a job that was ever enqueued may be delivered again) and
single worker blocks.

Timestamps are abstract ticks (`clock`); `datetime.now()` is the current
tick.  Database text columns are `String`, nullable columns `Option`.
-/

/- ===================== plan_controller.py ===================== -/

/-- The fixed `metadata` object `_mask_task` attaches to a masked task. -/
structure MaskMeta where
  masked : Bool
  upgrade_required : Bool
deriving DecidableEq, Repr

/-- A task dict as handed to `filter_tasks_by_plan` (the display shape).
`is_masked` and `metadata` are absent (`none`) on unmasked tasks; `_mask_task`
adds them.  Python dicts with this fixed key set are modelled as a structure. -/
structure TaskDict where
  id : String
  title : String
  description : String
  category : String
  priority : String
  tips : String
  is_masked : Option Bool
  metadata : Option MaskMeta
deriving DecidableEq, Repr

/-- `PlanController.FREE_PLAN_TASK_LIMIT`. -/
def FREE_PLAN_TASK_LIMIT : Nat := 2

/-- Masked-title text from `_mask_task`. -/
def MASKED_TITLE : String := "🔒 有料プランで閲覧可能"

/-- Masked-description text from `_mask_task`. -/
def MASKED_DESCRIPTION : String := "このタスクを見るには有料プランへのアップグレードが必要です"

/-- `PlanController._mask_task`: spreads the original dict and overrides
`title`, `description`, `is_masked`, `metadata`. -/
def mask_task (task : TaskDict) : TaskDict :=
  { task with
      title := MASKED_TITLE
      description := MASKED_DESCRIPTION
      is_masked := some true
      metadata := some { masked := true, upgrade_required := true } }

/-- `PlanController.filter_tasks_by_plan`.  The premium lookup
(`subscription_manager.is_premium_user`) is an external read of the billing
collaborator and enters as the boolean `is_premium`.  `enumerate(tasks)` is
`List.enumFrom 0`. -/
def filter_tasks_by_plan (is_premium : Bool) (tasks : List TaskDict) : List TaskDict :=
  if is_premium then tasks
  else (List.enumFrom 0 tasks).map fun p =>
    if p.1 < FREE_PLAN_TASK_LIMIT then p.2 else mask_task p.2

/-- `PlanController.can_access_task_details`. -/
def can_access_task_details (is_premium : Bool) (task_index : Nat) : Bool :=
  if is_premium then true else task_index < FREE_PLAN_TASK_LIMIT

/-- Reading of the spec's wording for C4: a masked placeholder "carrying
`is_masked = true` and no content fields" — the mask flag is set and the
content fields (beyond the fixed lock texts) are empty.  Compared against
`mask_task`, which is translated from the source. -/
def spec_masked_no_content (t : TaskDict) : Prop :=
  t.is_masked = some true ∧ t.category = "" ∧ t.priority = "" ∧ t.tips = ""

instance (t : TaskDict) : Decidable (spec_masked_no_content t) := by
  unfold spec_masked_no_content; infer_instance

/- ===================== rate_limiter.py ===================== -/

/-- One row of `rate_limits` for a fixed owner: `(limit_date, message_count)`.
Calendar days are abstract `Nat` codes. -/
structure RateLimitRow where
  limit_date : Nat
  message_count : Nat
deriving DecidableEq, Repr

/-- `RateLimiter.DAILY_LIMIT`. -/
def DAILY_LIMIT : Nat := 100

/-- `RateLimiter.LIMIT_EXCEEDED_MESSAGE`. -/
def LIMIT_EXCEEDED_MESSAGE : String := "制限を超えました。24時間待ってから再開してください"

/-- The `INSERT ... ON CONFLICT DO UPDATE SET message_count = message_count + 1
RETURNING message_count` upsert of `check_rate_limit`: returns the updated
rows and the post-increment count for `today`. -/
def upsertRateLimit (today : Nat) : List RateLimitRow → List RateLimitRow × Nat
  | [] => ([{ limit_date := today, message_count := 1 }], 1)
  | r :: rs =>
    if r.limit_date = today then
      ({ r with message_count := r.message_count + 1 } :: rs, r.message_count + 1)
    else
      let p := upsertRateLimit today rs
      (r :: p.1, p.2)

/-- `RateLimiter.check_rate_limit`: unconditional atomic increment, then
`allowed = ¬ (post_increment > DAILY_LIMIT)`. -/
def check_rate_limit (today : Nat) (rows : List RateLimitRow) :
    (Bool × Option String) × List RateLimitRow :=
  let p := upsertRateLimit today rows
  if p.2 > DAILY_LIMIT then ((false, some LIMIT_EXCEEDED_MESSAGE), p.1)
  else ((true, none), p.1)

/-- `RateLimiter.get_current_count`: stored count for `today`, 0 if no row. -/
def get_current_count (today : Nat) (rows : List RateLimitRow) : Nat :=
  match rows.find? (fun r => r.limit_date == today) with
  | some r => r.message_count
  | none => 0

/-- `n` successive `check_rate_limit` calls on the same day. -/
def iterCheck (today : Nat) : Nat → List RateLimitRow → List RateLimitRow
  | 0, rows => rows
  | n + 1, rows => iterCheck today n (check_rate_limit today rows).2

/- ============== conversation_flow_manager.py: states ============== -/

/-- `ConversationState.INITIAL`. -/
def INITIAL : String := "initial"

/-- One row of `conversation_states` for a fixed owner. -/
structure ConvRow where
  state_name : String
  state_data : Option String
  expires_at : Option Nat
  updated_at : Nat
deriving DecidableEq, Repr

/-- `ORDER BY updated_at DESC LIMIT 1`: the row with the greatest
`updated_at` (first such row on ties). -/
def latestConvRow : List ConvRow → Option ConvRow
  | [] => none
  | r :: rs =>
    match latestConvRow rs with
    | none => some r
    | some b => if b.updated_at > r.updated_at then some b else some r

/-- `ConversationFlowManager.get_current_state`: INITIAL when no row exists;
INITIAL when the latest row has an `expires_at` in the past
(`expires_at and now > expires_at`); otherwise the stored `state_name`. -/
def get_current_state (now : Nat) (rows : List ConvRow) : String :=
  match latestConvRow rows with
  | none => INITIAL
  | some r =>
    match r.expires_at with
    | some e => if now > e then INITIAL else r.state_name
    | none => r.state_name

/-- The `INSERT ... ON CONFLICT (user_id, state_name) DO UPDATE` upsert of
`set_state`; the default TTL of 24 hours is 24 clock ticks. -/
def upsertConv (now : Nat) (name : String) (data : Option String) :
    List ConvRow → List ConvRow
  | [] => [{ state_name := name, state_data := data,
             expires_at := some (now + 24), updated_at := now }]
  | r :: rs =>
    if r.state_name = name then
      { r with state_data := data, expires_at := some (now + 24), updated_at := now } :: rs
    else r :: upsertConv now name data rs

/- ============== conversation_flow_manager.py: step tracker ============== -/

/-- One row of `task_generation_steps` for a fixed `(owner, step_name)`.
Histories are kept newest-first, so the head is the
`ORDER BY created_at DESC LIMIT 1` row. -/
structure StepRow where
  status : String
  started_at : Option Nat
  completed_at : Option Nat
  metadata : Option String
  error_message : Option String
deriving DecidableEq, Repr

/-- Python truthiness of the optional `metadata` / `error_message` arguments
(`if metadata:` — `None` and empty are falsy); `metadata` is carried as its
JSON text. -/
def optTruthy : Option String → Bool
  | none => false
  | some s => !(s == "")

/-- `ConversationFlowManager.set_task_generation_step_status` for one
`(owner, step_name)` history: if a most-recent row exists it is UPDATEd in
place (`in_progress` stamps `started_at`, `completed`/`failed` stamp
`completed_at`; `metadata`/`error_message` only overwrite when truthy),
otherwise a fresh row is INSERTed. -/
def setStepStatus (now : Nat) (status : String) (metadata err : Option String) :
    List StepRow → List StepRow
  | [] =>
    [{ status := status
       started_at := if status == "in_progress" then some now else none
       completed_at := if status == "completed" || status == "failed" then some now else none
       metadata := if optTruthy metadata then metadata else none
       error_message := err }]
  | latest :: rest =>
    { latest with
        status := status
        started_at := if status == "in_progress" then some now else latest.started_at
        completed_at := if status == "completed" || status == "failed" then some now
                        else latest.completed_at
        metadata := if optTruthy metadata then metadata else latest.metadata
        error_message := if optTruthy err then err else latest.error_message } :: rest

/-- `ConversationFlowManager.get_task_generation_step_status`: status of the
most recent row, `None` when no row exists. -/
def getStepStatus (rows : List StepRow) : Option String :=
  rows.head?.map (·.status)

/- ===================== question_generator.py ===================== -/

/-- One row of `follow_up_questions` for a fixed owner.  The source stores
`display_order` as a numeric column and inserts dependent service questions
at `parent + 0.5`; orders here are scaled by 10 (base questions 10,20,…;
dependent insert at `parent + 5`), an order-isomorphic integer encoding. -/
structure Question where
  question_key : String
  question_text : String
  question_type : String
  options : Option String
  display_order : Nat
  parent_question_key : Option String
  answer : Option String
  is_answered : Bool
deriving DecidableEq, Repr

/-- `check_all_questions_answered`: `COUNT(*) WHERE is_answered = false` is 0. -/
def check_all_questions_answered (qs : List Question) : Bool :=
  (qs.filter fun q => q.is_answered == false).length == 0

/-- Helper building an unanswered yes/no base question. -/
def baseQ (key text : String) (ord : Nat) : Question :=
  { question_key := key, question_text := text, question_type := "yes_no",
    options := none, display_order := ord, parent_question_key := none,
    answer := none, is_answered := false }

/-- The ten `base_questions` of `generate_follow_up_questions`
(display orders 1..10, scaled by 10). -/
def base_questions : List Question :=
  [ baseQ "has_pension" "故人は年金を受給していましたか？" 10,
    baseQ "has_care_insurance" "介護保険サービスを利用していましたか？" 20,
    baseQ "has_real_estate" "持ち家や土地などの不動産を保有していますか？" 30,
    baseQ "has_vehicle" "車両（自動車・バイクなど）を保有していますか？" 40,
    baseQ "has_life_insurance" "生命保険に加入していましたか？" 50,
    baseQ "has_bank_account" "銀行口座を持っていましたか？" 60,
    baseQ "has_credit_card" "クレジットカードを持っていましたか？" 70,
    baseQ "has_mobile_contract" "携帯電話の契約はありましたか？" 80,
    baseQ "has_subscription" "サブスクリプションサービス（Netflix、Amazon Prime等）の契約はありましたか？" 90,
    baseQ "is_self_employed" "故人は自営業でしたか？" 100 ]

/-- The two relationship-dependent questions (orders 11, 12, scaled). -/
def relationship_questions : List Question :=
  [ baseQ "is_dependent_family" "ご家族に扶養されていた方（お子様など）はいらっしゃいますか？" 110,
    baseQ "has_children" "お子様はいらっしゃいますか？" 120 ]

/-- `_save_questions_to_db`: insert each question unless a row with the same
`question_key` already exists (idempotent). -/
def save_questions_to_db (new : List Question) (qs : List Question) : List Question :=
  new.foldl
    (fun acc q =>
      if (acc.find? fun q0 => q0.question_key == q.question_key).isSome then acc
      else acc ++ [q])
    qs

/-- `FOLLOW_UP_SERVICE_QUESTIONS` from `service_providers.py`:
`(parent key, dependent question_key, question_text)`.  The provider option
lists (UI quick-reply content) are elided; `options` is tagged with the
`service_type`. -/
def FOLLOW_UP_SERVICE_QUESTIONS : List (String × String × String) :=
  [ ("has_life_insurance", "life_insurance_providers",
     "加入している保険会社を選んでください（複数選択可、選び終わったら「選択完了」を押してください）"),
    ("has_bank_account", "bank_providers",
     "口座をお持ちの銀行を選んでください（複数選択可、選び終わったら「選択完了」を押してください）"),
    ("has_credit_card", "credit_card_providers",
     "お持ちのクレジットカードを選んでください（複数選択可、選び終わったら「選択完了」を押してください）"),
    ("has_mobile_contract", "mobile_carrier_providers",
     "契約している携帯会社を選んでください（複数選択可、選び終わったら「選択完了」を押してください）"),
    ("has_subscription", "subscription_providers",
     "契約しているサービスを選んでください（複数選択可、選び終わったら「選択完了」を押してください）") ]

/-- `_create_service_selection_question`: no-op when the parent key has no
config or the dependent question already exists; otherwise inserts a
`multiple_select` question just after the parent (`parent_order + 0.5`,
scaled to `+ 5`). -/
def create_service_selection_question (parent_key : String) (qs : List Question) :
    List Question :=
  match FOLLOW_UP_SERVICE_QUESTIONS.find? (fun c => c.1 == parent_key) with
  | none => qs
  | some c =>
    if (qs.find? fun q => q.question_key == c.2.1).isSome then qs
    else
      let parent_order :=
        match qs.find? (fun q => q.question_key == parent_key) with
        | some q => q.display_order
        | none => 0
      qs ++ [{ question_key := c.2.1, question_text := c.2.2,
               question_type := "multiple_select", options := some "providers",
               display_order := parent_order + 5,
               parent_question_key := some parent_key,
               answer := none, is_answered := false }]

/-- The `profile_columns` list of `save_answer`. -/
def profile_columns : List String :=
  [ "has_pension", "has_care_insurance", "has_real_estate",
    "has_vehicle", "has_life_insurance", "is_self_employed",
    "is_dependent_family", "has_children",
    "has_bank_account", "has_credit_card", "has_mobile_contract", "has_subscription" ]

/-- Stable insertion into a list sorted by `display_order` (ascending). -/
def insertByOrder (q : Question) : List Question → List Question
  | [] => [q]
  | x :: xs =>
    if x.display_order ≤ q.display_order then x :: insertByOrder q xs
    else q :: x :: xs

/-- `ORDER BY display_order` (ascending, stable). -/
def sortByOrder (qs : List Question) : List Question :=
  qs.foldr insertByOrder []

/-- `get_unanswered_questions`: unanswered rows ordered by `display_order`. -/
def get_unanswered_questions (qs : List Question) : List Question :=
  sortByOrder (qs.filter fun q => !q.is_answered)

/- ============== task_generator.py / task_personalizer.py ============== -/

/-- A task draft as returned by the Generation Service (one element of the
JSON `tasks` array).  `description` stands for the text
`format_task_description` assembles (string formatting elided). -/
structure Draft where
  title : String
  description : String
  category : String
  priority : String
  due_days : Nat
  tips : String
deriving DecidableEq, Repr

/-- One row of `tasks` for a fixed owner. -/
structure DbTask where
  title : String
  description : String
  category : String
  priority : String
  due_date : Option Nat
  status : String
  order_index : Nat
  generation_step : Option String
  tips : Option String
  is_deleted : Bool
deriving DecidableEq, Repr

/-- `user_profiles` fields read by the workers. -/
structure Profile where
  relationship : String
  prefecture : String
  municipality : String
  death_date : Option Nat
deriving DecidableEq, Repr

/-- `get_fallback_tasks` of `task_generator.py` (used when the Gemini call
raises; `tips` is absent in the fallback dicts). -/
def fallback_tasks : List Draft :=
  [ { title := "死亡届の提出",
      description := "死亡の事実を知った日から7日以内に、市区町村役場に提出してください。",
      category := "行政手続き", priority := "high", due_days := 7, tips := "" },
    { title := "火葬許可申請",
      description := "死亡届と同時に火葬許可申請書を提出してください。",
      category := "行政手続き", priority := "high", due_days := 7, tips := "" },
    { title := "年金受給停止の届出",
      description := "厚生年金は10日以内、国民年金は14日以内に年金事務所または市区町村役場に届け出てください。",
      category := "年金", priority := "high", due_days := 10, tips := "" },
    { title := "健康保険証の返却",
      description := "国民健康保険の場合は14日以内に市区町村役場に返却してください。",
      category := "保険", priority := "high", due_days := 14, tips := "" },
    { title := "世帯主変更届",
      description := "世帯主が亡くなった場合、14日以内に市区町村役場に届出してください。",
      category := "行政手続き", priority := "medium", due_days := 14, tips := "" },
    { title := "相続放棄の検討・手続き",
      description := "相続放棄する場合は、相続開始を知った日から3ヶ月以内に家庭裁判所に申述してください。",
      category := "相続", priority := "high", due_days := 90, tips := "" },
    { title := "準確定申告",
      description := "故人の所得税の確定申告を、相続開始を知った日の翌日から4ヶ月以内に行ってください。",
      category := "税金", priority := "medium", due_days := 120, tips := "" },
    { title := "相続税の申告・納付",
      description := "相続税の申告・納付は、相続開始を知った日の翌日から10ヶ月以内に行ってください。",
      category := "税金", priority := "medium", due_days := 300, tips := "" } ]

/-- The `INSERT INTO tasks` of `generate_basic_tasks` for the `i`-th draft
(`enumerate(generated_tasks, 1)`): `generation_step` and `tips` columns are
not set by the basic insert. -/
def draft_to_basic_task (death_date : Nat) (i : Nat) (d : Draft) : DbTask :=
  { title := d.title, description := d.description, category := d.category,
    priority := d.priority, due_date := some (death_date + d.due_days),
    status := "pending", order_index := i, generation_step := none,
    tips := none, is_deleted := false }

/-- `COALESCE(MAX(order_index), 0)` over an owner's tasks. -/
def maxOrderIndex (ts : List DbTask) : Nat :=
  ts.foldl (fun m t => max m t.order_index) 0

/- ===================== main.py: per-owner world ===================== -/

/-- Job names dispatched through the Cloud Tasks queue for one owner. -/
inductive Job
  | basicGen
  | personalizedGen
  | tipsEnhance
deriving DecidableEq, Repr

/-- All durable rows of one owner, plus the ever-enqueued jobs (`queue` is
append-only history: the queue redelivers at least once, so membership means
"deliverable") and the Push notifications sent (`pushes`, by tag). -/
structure World where
  clock : Nat
  profile : Option Profile
  conv : List ConvRow
  basicSteps : List StepRow
  personalizedSteps : List StepRow
  enhancedSteps : List StepRow
  tasks : List DbTask
  questions : List Question
  queue : List Job
  pushes : List String
deriving DecidableEq, Repr

/-- `ConversationFlowManager.set_state` on a world. -/
def set_state (name : String) (data : Option String) (w : World) : World :=
  { w with conv := upsertConv w.clock name data w.conv }

/-- `ConversationFlowManager.clear_state` on a world. -/
def clear_state (name : Option String) (w : World) : World :=
  { w with conv :=
      match name with
      | some n => w.conv.filter fun r => !(r.state_name == n)
      | none => [] }

/-- `ConversationFlowManager.should_start_personalization` (defined in the
source but never called by any trigger). -/
def should_start_personalization (w : World) : Bool :=
  if !(getStepStatus w.basicSteps == some "completed") then false
  else if !(check_all_questions_answered w.questions) then false
  else if getStepStatus w.personalizedSteps == some "completed"
          || getStepStatus w.personalizedSteps == some "in_progress" then false
  else true

/-- `ConversationFlowManager.should_start_enhancement` (also never called). -/
def should_start_enhancement (w : World) : Bool :=
  if !(getStepStatus w.personalizedSteps == some "completed") then false
  else if getStepStatus w.enhancedSteps == some "completed"
          || getStepStatus w.enhancedSteps == some "in_progress" then false
  else true

/-- `SELECT COUNT(*) FROM tasks WHERE user_id = ... AND is_deleted = false`. -/
def liveTaskCount (w : World) : Nat :=
  (w.tasks.filter fun t => !t.is_deleted).length

/-- `str.lower()` for one character (ASCII range; the literals compared against
are ASCII or kana, which `lower()` leaves unchanged). -/
def lowerChar (c : Char) : Char :=
  if 65 ≤ c.toNat ∧ c.toNat ≤ 90 then Char.ofNat (c.toNat + 32) else c

/-- `str.lower()` (structural recursion so that proofs can evaluate it). -/
def pyLower (s : String) : String :=
  String.mk (s.data.map lowerChar)

/-- `question_generator.save_answer` on a world: marks every row with the
given `question_key` answered; for a profile column answered in the
affirmative (`answer.lower() in ['はい','yes','true','1']`) with a service
config, spawns the dependent provider-selection question.  (The mirrored
boolean column on `user_profiles` is not a modelled field.) -/
def save_answer (key answer : String) (w : World) : World :=
  let qs := w.questions.map fun q =>
    if q.question_key == key then { q with answer := some answer, is_answered := true }
    else q
  let boolean_answer := ["はい", "yes", "true", "1"].contains (pyLower answer)
  let qs2 :=
    if profile_columns.contains key then
      if boolean_answer && (FOLLOW_UP_SERVICE_QUESTIONS.any fun c => c.1 == key) then
        create_service_selection_question key qs
      else qs
    else qs
  { w with questions := qs2 }

/-- `question_generator.generate_follow_up_questions` on a world: the base
set plus two relationship-dependent questions, inserted idempotently. -/
def generate_follow_up_questions (p : Profile) (w : World) : World :=
  let questions :=
    base_questions ++
      (if ["配偶者", "夫", "妻", "親"].contains p.relationship
       then relationship_questions else [])
  { w with questions := save_questions_to_db questions w.questions }

/-- `task_generator.generate_basic_tasks` on a world, with the Gemini outcome
as input (`none`: the service raised and `get_fallback_tasks` is used).
Returns the world and the generated-task count.  With no `death_date` the
function returns `[]` before calling the service. -/
def generate_basic_tasks (ai : Option (List Draft)) (p : Profile) (w : World) :
    World × Nat :=
  match p.death_date with
  | none => (w, 0)
  | some dd =>
    let drafts := match ai with
      | some ds => ds
      | none => fallback_tasks
    let newTasks := (List.enumFrom 1 drafts).map fun pr => draft_to_basic_task dd pr.1 pr.2
    ({ w with tasks := w.tasks ++ newTasks }, drafts.length)

/-- `task_personalizer.generate_personalized_tasks` on a world: a service
error yields zero drafts (no fallback); new tasks are appended after
`COALESCE(MAX(order_index),0)` with `generation_step='personalized'`. -/
def generate_personalized_tasks (ai : Option (List Draft)) (p : Profile) (w : World) :
    World × Nat :=
  match p.death_date with
  | none => (w, 0)
  | some dd =>
    let drafts := match ai with
      | some ds => ds
      | none => []
    let m := maxOrderIndex w.tasks
    let newTasks := (List.enumFrom 1 drafts).map fun pr =>
      { title := pr.2.title, description := pr.2.description,
        category := pr.2.category, priority := pr.2.priority,
        due_date := some (dd + pr.2.due_days), status := "pending",
        order_index := m + pr.1, generation_step := some "personalized",
        tips := some pr.2.tips, is_deleted := false : DbTask }
    ({ w with tasks := w.tasks ++ newTasks }, drafts.length)

/- ============ main.py: message handler (process_profile_collection) ============ -/

/-- The fall-through of `process_profile_collection` once the
awaiting-answers branch did not return: help/settings/upgrade replies and the
`conversation_history`-driven editing flows write none of the modelled rows;
with a complete profile, either tasks already exist (list/complete/AI-chat
replies — again no modelled writes) or a Basic-generation job is enqueued
(`enqueue_task_generation`, main.py:1290-1292). -/
def profile_complete_branch (w : World) : World :=
  match w.profile with
  | none => w
  | some p =>
    if p.relationship != "" && p.prefecture != "" && p.municipality != ""
        && p.death_date.isSome then
      if liveTaskCount w > 0 then w
      else { w with queue := w.queue ++ [Job.basicGen] }
    else w

/-- `process_profile_collection` for one inbound text `msg`: while the
current state is `awaiting_follow_up_answers` and an unanswered question
exists, `msg` answers the oldest one (by `display_order`); when none remain
afterwards the state is cleared and a Personalized job is enqueued
(main.py:925-931) — without consulting `should_start_personalization`.
Otherwise control falls through to `profile_complete_branch`. -/
def process_message (msg : String) (w : World) : World :=
  if get_current_state w.clock w.conv == "awaiting_follow_up_answers" then
    match get_unanswered_questions w.questions with
    | [] => profile_complete_branch w
    | q :: _ =>
      let w1 := save_answer q.question_key msg w
      if (get_unanswered_questions w1.questions).isEmpty then
        let w2 := clear_state (some "awaiting_follow_up_answers") w1
        { w2 with queue := w2.queue ++ [Job.personalizedGen] }
      else w1
  else profile_complete_branch w

/- ===================== main.py: queue workers ===================== -/

/-- Environment of one `generate_tasks_worker` delivery: the ownership
verification outcome (`verify_user_ownership`) and the Gemini outcome. -/
structure BasicEnv where
  owner_ok : Bool
  ai : Option (List Draft)
deriving DecidableEq, Repr

/-- Environment of one `personalized_tasks_worker` delivery. -/
structure PersEnv where
  owner_ok : Bool
  ai : Option (List Draft)
deriving DecidableEq, Repr

/-- Push-notification tags (message texts elided). -/
def basic_summary_push : String := "basic_tasks_summary"

/-- Tag of the Basic failure notification (worker except-path). -/
def basic_error_push : String := "task_generation_failed"

/-- Tag of the Personalized success notification. -/
def personalized_done_push : String := "personalized_tasks_done"

/-- Task count reported by `generate_basic_tasks` (the `task_count` metadata
and the summary length), recomputed from the environment. -/
def basicTaskCount (env : BasicEnv) (p : Profile) : Nat :=
  match p.death_date with
  | none => 0
  | some _ =>
    match env.ai with
    | some ds => ds.length
    | none => fallback_tasks.length

/-- Task count reported by `generate_personalized_tasks`. -/
def persTaskCount (env : PersEnv) (p : Profile) : Nat :=
  match p.death_date with
  | none => 0
  | some _ =>
    match env.ai with
    | some ds => ds.length
    | none => 0

/-- One committed block of `generate_tasks_worker` (each
`with engine.connect()` of main.py:440-597 commits separately); returns the
world and the next block, `none` meaning the invocation returned.  The
profile is fetched once at block 2 and held in a Python local through blocks
3-5; since no modelled operation writes `profile`, re-reading it there is
equivalent.  Blocks:
0 ownership check (403 on failure, before any write);
1 set `basic` to `in_progress` — unconditionally, with no status guard;
2 fetch profile (404 return when absent — `basic` stays `in_progress`);
3 `generate_basic_tasks` (service errors swallowed by the fallback);
4 set `basic` to `completed` with `task_count` metadata;
5 `generate_follow_up_questions`;
6 read the first unanswered question (read-only);
7 Push the summary;
8 set state `awaiting_follow_up_answers`. -/
def stepBasicWorker (env : BasicEnv) (pc : Nat) (w : World) : World × Option Nat :=
  match pc with
  | 0 => if env.owner_ok then (w, some 1) else (w, none)
  | 1 => ({ w with basicSteps := setStepStatus w.clock "in_progress" none none w.basicSteps },
          some 2)
  | 2 =>
    match w.profile with
    | none => (w, none)
    | some _ => (w, some 3)
  | 3 =>
    match w.profile with
    | none => (w, none)
    | some p => ((generate_basic_tasks env.ai p w).1, some 4)
  | 4 =>
    match w.profile with
    | none => (w, none)
    | some p =>
      let rows := setStepStatus w.clock "completed"
        (some (toString (basicTaskCount env p))) none w.basicSteps
      ({ w with basicSteps := rows }, some 5)
  | 5 =>
    match w.profile with
    | none => (w, none)
    | some p => (generate_follow_up_questions p w, some 6)
  | 6 => (w, some 7)
  | 7 => ({ w with pushes := w.pushes ++ [basic_summary_push] }, some 8)
  | 8 => (set_state "awaiting_follow_up_answers" (some "current_question_index:0") w, none)
  | _ => (w, none)

/-- One committed block of `personalized_tasks_worker`
(main.py:2720-2829).  Blocks:
0 ownership check;
1 set `personalized` to `in_progress` — unconditionally, no guard;
2 fetch profile and answers (a missing profile raises `profile_data[0]`;
  the except-path marks the step `failed` and returns 500, without a Push);
3 `generate_personalized_tasks` (appends, never replaces);
4 set `personalized` to `completed`;
5 Push the success notification;
6 enqueue the Tips-enhancement job. -/
def stepPersWorker (env : PersEnv) (pc : Nat) (w : World) : World × Option Nat :=
  match pc with
  | 0 => if env.owner_ok then (w, some 1) else (w, none)
  | 1 =>
    let rows := setStepStatus w.clock "in_progress" none none w.personalizedSteps
    ({ w with personalizedSteps := rows }, some 2)
  | 2 =>
    match w.profile with
    | none =>
      let rows := setStepStatus w.clock "failed" none (some "profile fetch error")
        w.personalizedSteps
      ({ w with personalizedSteps := rows }, none)
    | some _ => (w, some 3)
  | 3 =>
    match w.profile with
    | none => (w, none)
    | some p => ((generate_personalized_tasks env.ai p w).1, some 4)
  | 4 =>
    match w.profile with
    | none => (w, none)
    | some p =>
      let rows := setStepStatus w.clock "completed"
        (some (toString (persTaskCount env p))) none w.personalizedSteps
      ({ w with personalizedSteps := rows }, some 5)
  | 5 => ({ w with pushes := w.pushes ++ [personalized_done_push] }, some 6)
  | 6 => ({ w with queue := w.queue ++ [Job.tipsEnhance] }, none)
  | _ => (w, none)

/-- A full (uninterleaved) run of `generate_tasks_worker`, by fuel; the pc
strictly increases and is at most 8, so fuel 12 always finishes. -/
def runBasicWorkerFuel : Nat → BasicEnv → Nat → World → World
  | 0, _, _, w => w
  | fuel + 1, env, pc, w =>
    match stepBasicWorker env pc w with
    | (w', none) => w'
    | (w', some pc') => runBasicWorkerFuel fuel env pc' w'

/-- A full delivery of a Basic job executed without interleaving. -/
def runBasicWorker (env : BasicEnv) (w : World) : World :=
  runBasicWorkerFuel 12 env 0 w

/- ===================== scheduler ===================== -/

/-- An in-flight worker invocation: which worker, its environment, and the
next block to run. -/
inductive Thread
  | basicW (env : BasicEnv) (pc : Nat)
  | persW (env : PersEnv) (pc : Nat)
deriving DecidableEq, Repr

/-- Run one block of a thread; `none` means the invocation returned. -/
def stepThread : Thread → World → World × Option Thread
  | .basicW env pc, w =>
    let p := stepBasicWorker env pc w
    (p.1, p.2.map (Thread.basicW env))
  | .persW env pc, w =>
    let p := stepPersWorker env pc w
    (p.1, p.2.map (Thread.persW env))

/-- A system state: the owner's world plus in-flight worker invocations. -/
structure Sys where
  world : World
  threads : List Thread
deriving DecidableEq, Repr

/-- Scheduler alphabet: an inbound text, a queue delivery of an enqueued job
(at-least-once: any job ever enqueued may be (re-)delivered), or running the
next block of in-flight invocation `i`. -/
inductive Choice
  | message (msg : String)
  | deliverBasic (env : BasicEnv)
  | deliverPers (env : PersEnv)
  | advance (i : Nat)
deriving DecidableEq, Repr

/-- Clock tick: every scheduled step happens at a fresh timestamp. -/
def tick (w : World) : World := { w with clock := w.clock + 1 }

/-- Advance the `i`-th thread by one block. -/
def advanceAt : Nat → List Thread → World → Option (List Thread × World)
  | _, [], _ => none
  | 0, t :: ts, w =>
    let p := stepThread t w
    some ((match p.2 with | none => ts | some t2 => t2 :: ts), p.1)
  | i + 1, t :: ts, w =>
    match advanceAt i ts w with
    | none => none
    | some q => some (t :: q.1, q.2)

/-- One scheduler step; `none` when the choice is not enabled. -/
def stepChoice : Choice → Sys → Option Sys
  | .message m, s => some { s with world := process_message m (tick s.world) }
  | .deliverBasic env, s =>
    if Job.basicGen ∈ s.world.queue then
      some { s with threads := s.threads ++ [Thread.basicW env 0] }
    else none
  | .deliverPers env, s =>
    if Job.personalizedGen ∈ s.world.queue then
      some { s with threads := s.threads ++ [Thread.persW env 0] }
    else none
  | .advance i, s =>
    match advanceAt i s.threads (tick s.world) with
    | none => none
    | some q => some { world := q.2, threads := q.1 }

/-- Execute a schedule. -/
def run : List Choice → Sys → Option Sys
  | [], s => some s
  | c :: cs, s =>
    match stepChoice c s with
    | none => none
    | some s' => run cs s'

/-- A complete profile (relationship `子`, so exactly the ten base follow-up
questions are generated). -/
def initProfile : Profile :=
  { relationship := "子", prefecture := "東京都", municipality := "新宿区",
    death_date := some 100 }

/-- The owner's world right after profile completion. -/
def initWorld : World :=
  { clock := 0, profile := some initProfile, conv := [], basicSteps := [],
    personalizedSteps := [], enhancedSteps := [], tasks := [], questions := [],
    queue := [], pushes := [] }

/-- Initial system state. -/
def initSys : Sys := { world := initWorld, threads := [] }

/-- Spec property P2 for a world: `personalized` is not `in_progress` unless
`basic` is `completed`. -/
def pipelineOrdering (w : World) : Prop :=
  getStepStatus w.personalizedSteps = some "in_progress" →
  getStepStatus w.basicSteps = some "completed"

/-- Number of Basic-job deliveries in a schedule. -/
def countBasicDeliveries : List Choice → Nat
  | [] => 0
  | Choice.deliverBasic _ :: cs => countBasicDeliveries cs + 1
  | _ :: cs => countBasicDeliveries cs

/- ============== concrete environments and schedules ============== -/

/-- A sample one-element Generation Service result. -/
def sampleDraft : Draft :=
  { title := "死亡届の提出", description := "役場に提出",
    category := "行政手続き", priority := "high", due_days := 7, tips := "平日午前が空いている" }

/-- A Basic delivery whose ownership check passes and whose service call
succeeds with one draft. -/
def envBasicOk : BasicEnv := { owner_ok := true, ai := some [sampleDraft] }

/-- A Basic delivery whose ownership check passes and whose service call
raises (modelled by `ai = none`). -/
def envBasicRaise : BasicEnv := { owner_ok := true, ai := none }

/-- A Personalized delivery whose ownership check passes and whose service
call succeeds with zero drafts. -/
def envPersOk : PersEnv := { owner_ok := true, ai := some [] }

/-- A schedule witnessing the C2 violation: trigger Basic; deliver and run
the Basic worker to completion; answer the ten follow-up questions (the last
answer enqueues the Personalized job); re-deliver the still-enqueued Basic
job (at-least-once) and run it up to its guard-free `in_progress` write;
deliver the Personalized job and run it up to its guard-free `in_progress`
write. -/
def violatingSchedule : List Choice :=
  [Choice.message "start", Choice.deliverBasic envBasicOk] ++
  List.replicate 9 (Choice.advance 0) ++
  List.replicate 10 (Choice.message "いいえ") ++
  [Choice.deliverBasic envBasicOk, Choice.advance 0, Choice.advance 0,
   Choice.deliverPers envPersOk, Choice.advance 1, Choice.advance 1]

/-- The same pipeline run without any re-delivery (each job delivered once):
ends with the Personalized worker just past its `in_progress` write. -/
def happySchedule : List Choice :=
  [Choice.message "start", Choice.deliverBasic envBasicOk] ++
  List.replicate 9 (Choice.advance 0) ++
  List.replicate 10 (Choice.message "いいえ") ++
  [Choice.deliverPers envPersOk, Choice.advance 0, Choice.advance 0]

/-- A reachable world whose `basic` step is `in_progress` (the Basic job was
delivered and ran through its `in_progress` write). -/
def redeliveryWorld : World :=
  match run [Choice.message "start", Choice.deliverBasic envBasicOk,
             Choice.advance 0, Choice.advance 0] initSys with
  | some s => s.world
  | none => initWorld

/-- The rows `generate_basic_tasks` inserts from the fallback list. -/
def fallbackDbTasks (death_date : Nat) : List DbTask :=
  (List.enumFrom 1 fallback_tasks).map fun pr => draft_to_basic_task death_date pr.1 pr.2

/-- A concrete unmasked task dict with content in every field. -/
def sampleTaskDict : TaskDict :=
  { id := "42", title := "死亡届の提出", description := "7日以内に役場へ",
    category := "行政手続き", priority := "high", tips := "平日午前が空いている",
    is_masked := none, metadata := none }

/- ============== invariant phases for the C2 analysis ============== -/

/-- A thread is a Personalized-worker invocation. -/
def isPersThread (t : Thread) : Prop :=
  ∃ env pc, t = Thread.persW env pc

/-- Phase A — no Basic delivery has happened: no in-flight invocations, no
conversation-state rows, no `personalized` step rows, and no Personalized
job ever enqueued. -/
def PhaseA (s : Sys) : Prop :=
  s.threads = [] ∧ s.world.conv = [] ∧ s.world.personalizedSteps = [] ∧
    Job.personalizedGen ∉ s.world.queue

/-- Phase B — exactly one Basic invocation in flight (at block `pc ≤ 8`);
once past the `completed` write (block 4) the `basic` step reads
`completed`.  The conversation state is still empty, so no answer can
enqueue a Personalized job. -/
def PhaseB (s : Sys) : Prop :=
  ∃ env pc, s.threads = [Thread.basicW env pc] ∧ pc ≤ 8 ∧
    s.world.conv = [] ∧ s.world.personalizedSteps = [] ∧
    Job.personalizedGen ∉ s.world.queue ∧
    (5 ≤ pc → getStepStatus s.world.basicSteps = some "completed")

/-- Phase C — the Basic invocation has finished: `basic` reads `completed`
and only Personalized invocations can be in flight. -/
def PhaseC (s : Sys) : Prop :=
  getStepStatus s.world.basicSteps = some "completed" ∧
    ∀ t ∈ s.threads, isPersThread t

/-- Invariant maintained by every schedule that delivers the Basic job at
most once. -/
def SchedInv (s : Sys) : Prop := PhaseA s ∨ PhaseB s ∨ PhaseC s

/-- `generate_tasks_worker` (main.py:440-630) run to completion without
interleaving, as the straight-line source function: ownership check (403),
unconditional `in_progress` write, profile fetch (404 — after the status
write), basic generation (service errors swallowed by the fallback),
`completed` write with `task_count` metadata, follow-up-question generation,
summary Push, and the `awaiting_follow_up_answers` state.  Returns the world
and the HTTP status.  `stepBasicWorker` is the same body cut at its commit
points; the claims about interleavings use that form. -/
def generate_tasks_worker (env : BasicEnv) (w : World) : World × Nat :=
  if env.owner_ok = false then (w, 403)
  else
    let w1 := { w with basicSteps := setStepStatus w.clock "in_progress" none none w.basicSteps }
    match w1.profile with
    | none => (w1, 404)
    | some p =>
      let gen := generate_basic_tasks env.ai p w1
      let w2 := gen.1
      let w3 := { w2 with basicSteps :=
                    setStepStatus w2.clock "completed" (some (toString gen.2)) none w2.basicSteps }
      let w4 := generate_follow_up_questions p w3
      let w5 := { w4 with pushes := w4.pushes ++ [basic_summary_push] }
      let w6 := set_state "awaiting_follow_up_answers" (some "current_question_index:0") w5
      (w6, 200)

/-- The system state reached by `happySchedule`. -/
def c2HappySys : Sys :=
  match run happySchedule initSys with
  | some s => s
  | none => initSys

/-- The system state reached by `violatingSchedule`. -/
def c2BadSys : Sys :=
  match run violatingSchedule initSys with
  | some s => s
  | none => initSys

/-- A world with a completed `basic` step and no follow-up questions. -/
def c9World : World :=
  { initWorld with
      basicSteps := [{ status := "completed", started_at := some 1,
                       completed_at := some 2, metadata := some "8",
                       error_message := none }] }

/-- An expired `awaiting_follow_up_answers` conversation row. -/
def expiredRow : ConvRow :=
  { state_name := "awaiting_follow_up_answers", state_data := none,
    expires_at := some 5, updated_at := 1 }

/-- A most-recent `failed` step row (a previous attempt). -/
def c8Row : StepRow :=
  { status := "failed", started_at := some 1, completed_at := some 2,
    metadata := none, error_message := some "boom" }

/- ===================== helper lemmas ===================== -/

theorem getStepStatus_set (now : Nat) (st : String) (m e : Option String)
    (rows : List StepRow) :
    getStepStatus (setStepStatus now st m e rows) = some st := by
  cases rows <;> rfl

theorem setStepStatus_length (now : Nat) (st : String) (m e : Option String)
    (rows : List StepRow) :
    (setStepStatus now st m e rows).length = max 1 rows.length := by
  cases rows <;> simp [setStepStatus]

theorem setStepStatus_tail (now : Nat) (st : String) (m e : Option String)
    (rows : List StepRow) :
    (setStepStatus now st m e rows).tail = rows.tail := by
  cases rows <;> rfl

theorem enumFrom_mask_eq (n : Nat) (ts : List TaskDict) :
    ((List.enumFrom n ts).map fun p =>
        if p.1 < FREE_PLAN_TASK_LIMIT then p.2 else mask_task p.2) =
      ts.take (FREE_PLAN_TASK_LIMIT - n) ++
        (ts.drop (FREE_PLAN_TASK_LIMIT - n)).map mask_task := by
  induction ts generalizing n with
  | nil => simp
  | cons t ts ih =>
    simp only [List.enumFrom, List.map]
    by_cases h : n < FREE_PLAN_TASK_LIMIT
    · have h2 : FREE_PLAN_TASK_LIMIT - n = (FREE_PLAN_TASK_LIMIT - (n + 1)) + 1 := by
        unfold FREE_PLAN_TASK_LIMIT at *; omega
      rw [if_pos h, ih, h2]
      simp
    · have h2 : FREE_PLAN_TASK_LIMIT - n = 0 := by
        unfold FREE_PLAN_TASK_LIMIT at *; omega
      have h3 : FREE_PLAN_TASK_LIMIT - (n + 1) = 0 := by
        unfold FREE_PLAN_TASK_LIMIT at *; omega
      rw [if_neg h, ih, h2, h3]
      simp

theorem enumFrom_mask_get (n i : Nat) (ts : List TaskDict) :
    (((List.enumFrom n ts).map fun p =>
        if p.1 < FREE_PLAN_TASK_LIMIT then p.2 else mask_task p.2).get? i = ts.get? i) ∨
    (((List.enumFrom n ts).map fun p =>
        if p.1 < FREE_PLAN_TASK_LIMIT then p.2 else mask_task p.2).get? i =
      (ts.get? i).map mask_task) := by
  induction ts generalizing n i with
  | nil => left; rfl
  | cons t ts ih =>
    cases i with
    | zero =>
      by_cases h : n < FREE_PLAN_TASK_LIMIT
      · left; simp [List.enumFrom, h]
      · right; simp [List.enumFrom, h]
    | succ i =>
      simpa [List.enumFrom] using ih (n + 1) i

theorem caqa_iff (qs : List Question) :
    check_all_questions_answered qs = true ↔ ∀ q ∈ qs, q.is_answered = true := by
  unfold check_all_questions_answered
  simp [List.length_eq_zero, List.filter_eq_nil_iff]

theorem ssp_iff (w : World) :
    should_start_personalization w = true ↔
      (getStepStatus w.basicSteps = some "completed" ∧
       (∀ q ∈ w.questions, q.is_answered = true) ∧
       getStepStatus w.personalizedSteps ≠ some "completed" ∧
       getStepStatus w.personalizedSteps ≠ some "in_progress") := by
  rw [← caqa_iff]
  by_cases h1 : getStepStatus w.basicSteps = some "completed" <;>
    by_cases h2 : check_all_questions_answered w.questions = true <;>
    by_cases h3 : getStepStatus w.personalizedSteps = some "completed" <;>
    by_cases h4 : getStepStatus w.personalizedSteps = some "in_progress" <;>
    simp [should_start_personalization, h1, h2, h3, h4]

theorem sse_iff (w : World) :
    should_start_enhancement w = true ↔
      (getStepStatus w.personalizedSteps = some "completed" ∧
       getStepStatus w.enhancedSteps ≠ some "completed" ∧
       getStepStatus w.enhancedSteps ≠ some "in_progress") := by
  by_cases h1 : getStepStatus w.personalizedSteps = some "completed" <;>
    by_cases h2 : getStepStatus w.enhancedSteps = some "completed" <;>
    by_cases h3 : getStepStatus w.enhancedSteps = some "in_progress" <;>
    simp [should_start_enhancement, h1, h2, h3]

theorem upsertRateLimit_snd (today : Nat) (rows : List RateLimitRow) :
    (upsertRateLimit today rows).2 = get_current_count today rows + 1 := by
  induction rows with
  | nil => rfl
  | cons r rs ih =>
    by_cases h : r.limit_date = today
    · simp [upsertRateLimit, get_current_count, List.find?, beq_iff_eq, h]
    · have hb : (r.limit_date == today) = false := by simpa using h
      simp only [upsertRateLimit, get_current_count, List.find?, hb, h, if_false, if_neg,
        not_false_iff]
      simpa [get_current_count] using ih

theorem upsertRateLimit_fst (today : Nat) (rows : List RateLimitRow) :
    get_current_count today (upsertRateLimit today rows).1 =
      get_current_count today rows + 1 := by
  induction rows with
  | nil => simp [upsertRateLimit, get_current_count, List.find?]
  | cons r rs ih =>
    by_cases h : r.limit_date = today
    · simp [upsertRateLimit, get_current_count, List.find?, beq_iff_eq, h]
    · have hb : (r.limit_date == today) = false := by simpa using h
      simp only [upsertRateLimit, get_current_count, List.find?, hb, h, if_false, if_neg,
        not_false_iff]
      simpa [get_current_count] using ih

/- ===================== claim theorems: C4, C10 ===================== -/

/-- Claim C4 counterexample: for a non-premium owner with three tasks, the
third output element is not a placeholder "with no content fields" — the
code's `_mask_task` keeps `category`, `priority` and `tips` from the original
task, so the claim as stated fails at this input. -/
theorem c4_counterexample :
    ¬ ((filter_tasks_by_plan false [sampleTaskDict, sampleTaskDict, sampleTaskDict]).length = 3 ∧
       (filter_tasks_by_plan false [sampleTaskDict, sampleTaskDict, sampleTaskDict]).take 2 =
         [sampleTaskDict, sampleTaskDict] ∧
       ∀ t ∈ (filter_tasks_by_plan false [sampleTaskDict, sampleTaskDict, sampleTaskDict]).drop 2,
         spec_masked_no_content t) := by
  decide

/-- Claim C4 (amended): for a non-premium owner `filter_tasks_by_plan`
returns the first `FREE_PLAN_TASK_LIMIT` tasks unchanged followed by the
remaining tasks masked, in original order; each placeholder carries
`is_masked = true` with `title`/`description` replaced by the fixed
upgrade-prompt strings and every other field retained from the original
task; for a premium owner it is the identity. -/
theorem c4_masking (tasks : List TaskDict) :
    filter_tasks_by_plan true tasks = tasks ∧
    filter_tasks_by_plan false tasks =
      tasks.take FREE_PLAN_TASK_LIMIT ++
        (tasks.drop FREE_PLAN_TASK_LIMIT).map mask_task ∧
    ∀ t : TaskDict,
      (mask_task t).is_masked = some true ∧
      (mask_task t).title = MASKED_TITLE ∧
      (mask_task t).description = MASKED_DESCRIPTION ∧
      (mask_task t).metadata = some { masked := true, upgrade_required := true } ∧
      (mask_task t).id = t.id ∧
      (mask_task t).category = t.category ∧
      (mask_task t).priority = t.priority ∧
      (mask_task t).tips = t.tips := by
  refine ⟨rfl, ?_, fun t => ⟨rfl, rfl, rfl, rfl, rfl, rfl, rfl, rfl⟩⟩
  simpa [filter_tasks_by_plan] using enumFrom_mask_eq 0 tasks

/-- Claim C10: for every owner and input list, `filter_tasks_by_plan`
returns a list of the same length in which element `i` is either input
element `i` unchanged or its masked copy — it never removes, reorders or
adds tasks. -/
theorem c10_filter_shape (is_premium : Bool) (tasks : List TaskDict) :
    (filter_tasks_by_plan is_premium tasks).length = tasks.length ∧
    ∀ i : Nat,
      (filter_tasks_by_plan is_premium tasks).get? i = tasks.get? i ∨
      (filter_tasks_by_plan is_premium tasks).get? i = (tasks.get? i).map mask_task := by
  cases is_premium
  · refine ⟨?_, fun i => enumFrom_mask_get 0 i tasks⟩
    simp [filter_tasks_by_plan]
  · exact ⟨rfl, fun i => Or.inl rfl⟩

/- ===================== claim theorem: C5 ===================== -/

/-- Claim C5: with `DAILY_LIMIT = 100`, every `check_rate_limit` call —
allowed or rejected — increments the stored counter for the day by exactly
one, and a call is allowed exactly when the post-increment count is within
the ceiling; starting from no row, the 100th call of a day returns
`allowed = true` and the 101st returns `allowed = false`, and the counter
records every attempt (99, 100, 101 after the respective calls). -/
theorem c5_rate_limiter_boundary :
    (∀ today rows,
      get_current_count today (check_rate_limit today rows).2 =
        get_current_count today rows + 1 ∧
      (check_rate_limit today rows).1.1 =
        decide (get_current_count today rows + 1 ≤ DAILY_LIMIT)) ∧
    (check_rate_limit 0 (iterCheck 0 99 [])).1.1 = true ∧
    (check_rate_limit 0 (iterCheck 0 100 [])).1.1 = false ∧
    get_current_count 0 (iterCheck 0 99 []) = 99 ∧
    get_current_count 0 (iterCheck 0 100 []) = 100 ∧
    get_current_count 0 (iterCheck 0 101 []) = 101 := by
  refine ⟨fun today rows => ⟨?_, ?_⟩, by decide, by decide, by decide, by decide, by decide⟩
  · have h1 := upsertRateLimit_fst today rows
    unfold check_rate_limit
    by_cases hgt : (upsertRateLimit today rows).2 > DAILY_LIMIT <;> simp [hgt, h1]
  · have hs := upsertRateLimit_snd today rows
    unfold check_rate_limit
    by_cases hgt : (upsertRateLimit today rows).2 > DAILY_LIMIT
    · have hn : ¬ (get_current_count today rows + 1 ≤ DAILY_LIMIT) := by rw [← hs]; omega
      simp [hgt, hn]
    · have hy : get_current_count today rows + 1 ≤ DAILY_LIMIT := by rw [← hs]; omega
      simp [hgt, hy]

/- ===================== claim theorem: C6 ===================== -/

/-- Claim C6: `get_current_state` returns INITIAL when no row exists and
when the latest row's `expires_at` is in the past, regardless of the stored
`state_name`; when the latest row has not expired (or has no expiry) it
returns that row's `state_name`.  The function is total, so an unknown
owner (no rows) safely yields INITIAL rather than an error. -/
theorem c6_state_expiry (now : Nat) (rows : List ConvRow) :
    (rows = [] → get_current_state now rows = INITIAL) ∧
    (∀ r, latestConvRow rows = some r →
      (∀ e, r.expires_at = some e → now > e →
        get_current_state now rows = INITIAL) ∧
      (∀ e, r.expires_at = some e → ¬ now > e →
        get_current_state now rows = r.state_name) ∧
      (r.expires_at = none → get_current_state now rows = r.state_name)) := by
  constructor
  · intro h; subst h; rfl
  · intro r hr
    refine ⟨fun e he hgt => ?_, fun e he hle => ?_, fun he => ?_⟩ <;>
      simp [get_current_state, hr, he] <;> omega

/-- Witness for C6 at a concrete expired row: the stored name is
`awaiting_follow_up_answers` but the state read at time 10 (past the expiry
5) is INITIAL. -/
theorem c6_state_expiry_witness :
    latestConvRow [expiredRow] = some expiredRow ∧
    expiredRow.expires_at = some 5 ∧ 10 > 5 ∧
    get_current_state 10 [expiredRow] = INITIAL :=
  ⟨by decide, by decide, by decide,
    ((c6_state_expiry 10 [expiredRow]).2 expiredRow (by decide)).1 5 (by decide) (by decide)⟩

/- ===================== claim theorem: C7 ===================== -/

/-- Claim C7: `should_start_personalization` is true iff the basic step is
`completed`, every follow-up question is answered, and the personalized step
is neither `completed` nor `in_progress`; `should_start_enhancement` is true
iff the personalized step is `completed` and the enhanced step is neither
`completed` nor `in_progress`. -/
theorem c7_stage_guards (w : World) :
    (should_start_personalization w = true ↔
      (getStepStatus w.basicSteps = some "completed" ∧
       (∀ q ∈ w.questions, q.is_answered = true) ∧
       getStepStatus w.personalizedSteps ≠ some "completed" ∧
       getStepStatus w.personalizedSteps ≠ some "in_progress")) ∧
    (should_start_enhancement w = true ↔
      (getStepStatus w.personalizedSteps = some "completed" ∧
       getStepStatus w.enhancedSteps ≠ some "completed" ∧
       getStepStatus w.enhancedSteps ≠ some "in_progress")) :=
  ⟨ssp_iff w, sse_iff w⟩

/- ===================== claim theorems: C8 ===================== -/

/-- Claim C8 counterexample: with one existing (`failed`) row for the step,
a new attempt's status write leaves a single row — the existing row is
updated in place, not preserved under a freshly inserted one. -/
theorem c8_counterexample :
    (setStepStatus 5 "in_progress" none none [c8Row]).length = 1 ∧
    c8Row ∉ setStepStatus 5 "in_progress" none none [c8Row] := by
  decide

/-- Claim C8 (amended): `set_task_generation_step_status` inserts a fresh
row only when no row exists for the `(owner, step)`; otherwise it updates
the most recent row in place, leaving all older rows unchanged.  Rows are
never deleted — the history length never decreases (and no code path
deletes from `task_generation_steps`) — and the most recent row carries the
new status. -/
theorem c8_step_row_update (now : Nat) (status : String) (metadata err : Option String)
    (rows : List StepRow) :
    (setStepStatus now status metadata err rows).length = max 1 rows.length ∧
    (setStepStatus now status metadata err rows).tail = rows.tail ∧
    getStepStatus (setStepStatus now status metadata err rows) = some status :=
  ⟨setStepStatus_length now status metadata err rows,
   setStepStatus_tail now status metadata err rows,
   getStepStatus_set now status metadata err rows⟩

/- ===================== claim theorems: C9 ===================== -/

/-- Claim C9: with zero follow-up-question rows
`check_all_questions_answered` is vacuously true, so the "all questions
answered" conjunct of the personalization guard is satisfied and the guard
reduces to the two step-status conditions. -/
theorem c9_vacuous_questions (w : World) (h : w.questions = []) :
    check_all_questions_answered w.questions = true ∧
    (should_start_personalization w = true ↔
      (getStepStatus w.basicSteps = some "completed" ∧
       getStepStatus w.personalizedSteps ≠ some "completed" ∧
       getStepStatus w.personalizedSteps ≠ some "in_progress")) := by
  constructor
  · rw [h]; rfl
  · rw [ssp_iff w, h]
    simp

/-- Witness for C9: an owner with a completed basic step, no questions and
no personalized rows — the guard is satisfied. -/
theorem c9_vacuous_questions_witness :
    c9World.questions = [] ∧
    check_all_questions_answered c9World.questions = true ∧
    should_start_personalization c9World = true := by
  refine ⟨rfl, (c9_vacuous_questions c9World rfl).1, ?_⟩
  exact ((c9_vacuous_questions c9World rfl).2).mpr (by decide)

/- ===================== claim theorems: C3 ===================== -/

/-- Claim C3 counterexample: when the Generation Service raises during Basic
(`ai = none`), the worker does not mark the step `failed`, does not leave the
task list empty, and does not send the failure notification — the error is
caught inside `generate_basic_tasks`, the fallback list is persisted, and
the run completes normally. -/
theorem c3_counterexample :
    ¬ (getStepStatus (generate_tasks_worker envBasicRaise initWorld).1.basicSteps =
         some "failed" ∧
       (generate_tasks_worker envBasicRaise initWorld).1.tasks = [] ∧
       basic_error_push ∈ (generate_tasks_worker envBasicRaise initWorld).1.pushes) := by
  decide

/-- Claim C3 (amended): if the Generation Service raises during Basic, the
error is swallowed by the fallback — the fallback task list is persisted for
the owner, the basic step is set to `completed`, the user receives the
normal success notification and no failure notification, and the worker
returns 200.  (`basic` is marked `failed` with `error_message` only by the
except-path for exceptions that escape the worker body, e.g. store
failures — not by service errors.) -/
theorem c3_failure_swallowed (w : World) (p : Profile) (env : BasicEnv) (dd : Nat)
    (henv : env.owner_ok = true) (hai : env.ai = none)
    (hp : w.profile = some p) (hdd : p.death_date = some dd)
    (hpush : basic_error_push ∉ w.pushes) :
    getStepStatus (generate_tasks_worker env w).1.basicSteps = some "completed" ∧
    (generate_tasks_worker env w).1.tasks = w.tasks ++ fallbackDbTasks dd ∧
    (generate_tasks_worker env w).1.pushes = w.pushes ++ [basic_summary_push] ∧
    basic_error_push ∉ (generate_tasks_worker env w).1.pushes ∧
    (generate_tasks_worker env w).2 = 200 := by
  unfold generate_tasks_worker
  rw [henv]
  simp only [Bool.true_eq_false, if_false]
  simp only [hp]
  unfold generate_basic_tasks
  simp only [hai, hdd]
  unfold generate_follow_up_questions set_state fallbackDbTasks
  simp only [getStepStatus_set]
  simp only [basic_error_push] at hpush
  simp [List.mem_append, hpush, basic_error_push, basic_summary_push]

/-- Witness for the amended C3 at the initial world. -/
theorem c3_failure_swallowed_witness :
    envBasicRaise.owner_ok = true ∧ envBasicRaise.ai = none ∧
    initWorld.profile = some initProfile ∧ initProfile.death_date = some 100 ∧
    (getStepStatus (generate_tasks_worker envBasicRaise initWorld).1.basicSteps =
       some "completed" ∧
     (generate_tasks_worker envBasicRaise initWorld).1.tasks =
       initWorld.tasks ++ fallbackDbTasks 100 ∧
     (generate_tasks_worker envBasicRaise initWorld).1.pushes =
       initWorld.pushes ++ [basic_summary_push] ∧
     basic_error_push ∉ (generate_tasks_worker envBasicRaise initWorld).1.pushes ∧
     (generate_tasks_worker envBasicRaise initWorld).2 = 200) :=
  ⟨rfl, rfl, rfl, rfl,
    c3_failure_swallowed initWorld initProfile envBasicRaise 100 rfl rfl rfl rfl
      (by decide)⟩

/- ===================== claim theorems: C1 ===================== -/

theorem str_beq_false_of_ne {a b : String} (h : a ≠ b) : (a == b) = false := by
  simpa using h

theorem set_state_basicSteps (n : String) (d : Option String) (w : World) :
    (set_state n d w).basicSteps = w.basicSteps := rfl

theorem set_state_tasks (n : String) (d : Option String) (w : World) :
    (set_state n d w).tasks = w.tasks := rfl

theorem set_state_pushes (n : String) (d : Option String) (w : World) :
    (set_state n d w).pushes = w.pushes := rfl

theorem gfq_basicSteps (p : Profile) (w : World) :
    (generate_follow_up_questions p w).basicSteps = w.basicSteps := rfl

theorem gfq_tasks (p : Profile) (w : World) :
    (generate_follow_up_questions p w).tasks = w.tasks := rfl

theorem gfq_pushes (p : Profile) (w : World) :
    (generate_follow_up_questions p w).pushes = w.pushes := rfl

theorem trigger_enqueues (m : String) (w : World) (p : Profile)
    (h1 : get_current_state w.clock w.conv ≠ "awaiting_follow_up_answers")
    (h2 : w.profile = some p)
    (h3 : p.relationship ≠ "") (h4 : p.prefecture ≠ "") (h5 : p.municipality ≠ "")
    (h6 : p.death_date.isSome = true)
    (h7 : liveTaskCount w = 0) :
    process_message m w = { w with queue := w.queue ++ [Job.basicGen] } := by
  unfold process_message
  rw [str_beq_false_of_ne h1]
  simp only [Bool.false_eq_true, if_false]
  unfold profile_complete_branch
  rw [h2]
  simp [h3, h4, h5, h6, h7]

theorem generate_tasks_worker_ok (env : BasicEnv) (w : World) (p : Profile)
    (henv : env.owner_ok = true) (hp : w.profile = some p) :
    getStepStatus (generate_tasks_worker env w).1.basicSteps = some "completed" ∧
    (generate_tasks_worker env w).1.tasks.length = w.tasks.length + basicTaskCount env p ∧
    (generate_tasks_worker env w).1.basicSteps.length = max 1 w.basicSteps.length ∧
    (generate_tasks_worker env w).2 = 200 := by
  unfold generate_tasks_worker
  rw [henv]
  simp only [Bool.true_eq_false, if_false, hp]
  unfold generate_basic_tasks basicTaskCount
  cases hdd : p.death_date with
  | none =>
    simp only [hdd, set_state_basicSteps, set_state_tasks, gfq_basicSteps, gfq_tasks,
      getStepStatus_set, setStepStatus_length]
    exact ⟨trivial, by simp, by omega, trivial⟩
  | some dd =>
    cases hai : env.ai with
    | none =>
      simp only [hdd, hai, set_state_basicSteps, set_state_tasks, gfq_basicSteps, gfq_tasks,
        getStepStatus_set, setStepStatus_length]
      exact ⟨trivial, by simp [List.enumFrom_length], by omega, trivial⟩
    | some ds =>
      simp only [hdd, hai, set_state_basicSteps, set_state_tasks, gfq_basicSteps, gfq_tasks,
        getStepStatus_set, setStepStatus_length]
      exact ⟨trivial, by simp [List.enumFrom_length], by omega, trivial⟩

/-- Claim C1 counterexample: (a) triggering Basic twice in immediate
succession enqueues two Basic jobs, not at most one; (b) `redeliveryWorld`
is reachable (the schedule runs) with the basic step already `in_progress`,
yet a re-delivered Basic job performs further writes — the delivery changes
the world, in particular re-persisting a task. -/
theorem c1_counterexample :
    (process_message "m" (process_message "m" initWorld)).queue.count Job.basicGen = 2 ∧
    (run [Choice.message "start", Choice.deliverBasic envBasicOk,
          Choice.advance 0, Choice.advance 0] initSys).isSome ∧
    getStepStatus redeliveryWorld.basicSteps = some "in_progress" ∧
    (generate_tasks_worker envBasicOk redeliveryWorld).1 ≠ redeliveryWorld ∧
    redeliveryWorld.tasks.length = 0 ∧
    (generate_tasks_worker envBasicOk redeliveryWorld).1.tasks.length = 1 := by
  refine ⟨by decide, by decide, by decide, ?_, by decide, by decide⟩
  decide

/-- Claim C1 (amended): with the conversation not awaiting answers, a
complete profile and no persisted tasks, triggering Basic twice in immediate
succession enqueues two Basic jobs (the only trigger-side dedup is skipping
when the owner already has live tasks); all status writes go to a single
`GenerationStep` row per `(owner, basic)` (the history length is
`max 1 (previous length)`); and a re-delivered Basic job re-runs in full
regardless of the step's current status — it sets the step `in_progress`
and then `completed` again and re-persists the generated tasks. -/
theorem c1_trigger_not_idempotent (m : String) (w wr : World) (p pr : Profile)
    (env : BasicEnv)
    (h1 : get_current_state w.clock w.conv ≠ "awaiting_follow_up_answers")
    (h2 : w.profile = some p)
    (h3 : p.relationship ≠ "") (h4 : p.prefecture ≠ "") (h5 : p.municipality ≠ "")
    (h6 : p.death_date.isSome = true)
    (h7 : w.tasks = [])
    (h8 : env.owner_ok = true) (h9 : wr.profile = some pr) :
    (process_message m (process_message m w)).queue =
      w.queue ++ [Job.basicGen, Job.basicGen] ∧
    getStepStatus (generate_tasks_worker env wr).1.basicSteps = some "completed" ∧
    (generate_tasks_worker env wr).1.tasks.length =
      wr.tasks.length + basicTaskCount env pr ∧
    (generate_tasks_worker env wr).1.basicSteps.length = max 1 wr.basicSteps.length := by
  have h7' : liveTaskCount w = 0 := by simp [liveTaskCount, h7]
  have e1 := trigger_enqueues m w p h1 h2 h3 h4 h5 h6 h7'
  have e2 := trigger_enqueues m { w with queue := w.queue ++ [Job.basicGen] } p h1 h2 h3 h4 h5 h6 h7'
  have hw := generate_tasks_worker_ok env wr pr h8 h9
  refine ⟨?_, hw.1, hw.2.1, hw.2.2.1⟩
  rw [e1, e2]
  simp

/-- Witness for the amended C1: the initial world and the reachable
`redeliveryWorld` whose basic step is already `in_progress`. -/
theorem c1_trigger_not_idempotent_witness :
    (process_message "m" (process_message "m" initWorld)).queue =
      initWorld.queue ++ [Job.basicGen, Job.basicGen] ∧
    getStepStatus redeliveryWorld.basicSteps = some "in_progress" ∧
    getStepStatus (generate_tasks_worker envBasicOk redeliveryWorld).1.basicSteps =
      some "completed" ∧
    (generate_tasks_worker envBasicOk redeliveryWorld).1.tasks.length =
      redeliveryWorld.tasks.length + basicTaskCount envBasicOk initProfile ∧
    (generate_tasks_worker envBasicOk redeliveryWorld).1.basicSteps.length =
      max 1 redeliveryWorld.basicSteps.length := by
  have h := c1_trigger_not_idempotent "m" initWorld redeliveryWorld initProfile initProfile
    envBasicOk (by decide) rfl (by decide) (by decide) (by decide) (by decide) rfl rfl
    (by decide)
  exact ⟨h.1, by decide, h.2.1, h.2.2.1, h.2.2.2⟩

/- ===================== claim theorems: C2 ===================== -/

/-- Claim C2 counterexample: the property "for every interleaving of calls,
`personalized` never reaches `in_progress` while `basic` is not `completed`"
is false — `violatingSchedule` is a legitimate interleaving (the Basic job
is re-delivered, which at-least-once queues permit) after which
`personalized` is `in_progress` while `basic` is `in_progress`.  The
Personalized trigger (main.py:931) never consults
`should_start_personalization`, and the Personalized worker sets
`in_progress` unconditionally. -/
theorem c2_counterexample :
    ¬ (∀ cs s, run cs initSys = some s → pipelineOrdering s.world) := by
  intro h
  have hrun : run violatingSchedule initSys = some c2BadSys := by decide
  have hp := h violatingSchedule c2BadSys hrun
  have h1 : getStepStatus c2BadSys.world.personalizedSteps = some "in_progress" := by
    decide
  have h2 := hp h1
  have h3 : getStepStatus c2BadSys.world.basicSteps = some "in_progress" := by decide
  rw [h2] at h3
  exact absurd h3 (by decide)

theorem pm_basicSteps (m : String) (w : World) :
    (process_message m w).basicSteps = w.basicSteps := by
  unfold process_message profile_complete_branch save_answer clear_state
  split
  · split
    · split
      · rfl
      · split
        · split <;> rfl
        · rfl
    · dsimp only
      (repeat' split) <;> rfl
  · split
    · rfl
    · split
      · split <;> rfl
      · rfl

theorem pm_personalizedSteps (m : String) (w : World) :
    (process_message m w).personalizedSteps = w.personalizedSteps := by
  unfold process_message profile_complete_branch save_answer clear_state
  split
  · split
    · split
      · rfl
      · split
        · split <;> rfl
        · rfl
    · dsimp only
      (repeat' split) <;> rfl
  · split
    · rfl
    · split
      · split <;> rfl
      · rfl

theorem pm_conv_nil (m : String) (w : World) (h : w.conv = []) :
    (process_message m w).conv = [] ∧
    (Job.personalizedGen ∈ (process_message m w).queue ↔
      Job.personalizedGen ∈ w.queue) := by
  have hgc : get_current_state w.clock w.conv = INITIAL := by rw [h]; rfl
  unfold process_message
  rw [hgc]
  simp only [show (INITIAL == "awaiting_follow_up_answers") = false from rfl,
    Bool.false_eq_true, if_false]
  unfold profile_complete_branch
  split
  · exact ⟨h, Iff.rfl⟩
  · split
    · split
      · exact ⟨h, Iff.rfl⟩
      · refine ⟨h, ?_⟩
        simp [List.mem_append, show Job.personalizedGen ≠ Job.basicGen from by decide]
    · exact ⟨h, Iff.rfl⟩

theorem gbt_frame (ai : Option (List Draft)) (p : Profile) (w : World) :
    (generate_basic_tasks ai p w).1.conv = w.conv ∧
    (generate_basic_tasks ai p w).1.basicSteps = w.basicSteps ∧
    (generate_basic_tasks ai p w).1.personalizedSteps = w.personalizedSteps ∧
    (generate_basic_tasks ai p w).1.queue = w.queue := by
  unfold generate_basic_tasks
  cases p.death_date <;> exact ⟨rfl, rfl, rfl, rfl⟩

theorem stepPers_basicSteps (env : PersEnv) (pc : Nat) (w : World) :
    (stepPersWorker env pc w).1.basicSteps = w.basicSteps := by
  unfold stepPersWorker generate_personalized_tasks
  (repeat' split) <;> rfl

theorem advanceAt_pers (i : Nat) (ts : List Thread) (w : World)
    (hts : ∀ t ∈ ts, isPersThread t) :
    ∀ q, advanceAt i ts w = some q →
      (∀ t ∈ q.1, isPersThread t) ∧ q.2.basicSteps = w.basicSteps := by
  induction ts generalizing i with
  | nil => intro q hq; simp [advanceAt] at hq
  | cons t ts ih =>
    intro q hq
    cases i with
    | zero =>
      obtain ⟨env, pc, ht⟩ := hts t (by simp)
      subst ht
      simp only [advanceAt, stepThread] at hq
      cases hq
      cases ho : (stepPersWorker env pc w).2 with
      | none =>
        refine ⟨?_, stepPers_basicSteps env pc w⟩
        simp only [ho, Option.map_none']
        exact fun t2 ht2 => hts t2 (by simp [ht2])
      | some pc2 =>
        refine ⟨?_, stepPers_basicSteps env pc w⟩
        simp only [ho, Option.map_some']
        intro t2 ht2
        rcases List.mem_cons.mp ht2 with rfl | ht3
        · exact ⟨env, pc2, rfl⟩
        · exact hts t2 (by simp [ht3])
    | succ i =>
      cases hrec : advanceAt i ts w with
      | none =>
        simp only [advanceAt, hrec] at hq
        exact Option.noConfusion hq
      | some q' =>
        simp only [advanceAt, hrec] at hq
        cases hq
        obtain ⟨hall, hbs⟩ := ih i (fun t2 ht2 => hts t2 (by simp [ht2])) q' hrec
        refine ⟨?_, hbs⟩
        intro t2 ht2
        rcases List.mem_cons.mp ht2 with rfl | ht3
        · exact hts t2 (by simp)
        · exact hall t2 ht3

theorem phaseA_step (c : Choice) (s s' : Sys) (hA : PhaseA s)
    (hc : ∀ env, c ≠ Choice.deliverBasic env) (h : stepChoice c s = some s') :
    PhaseA s' := by
  obtain ⟨ht, hc0, hps, hq⟩ := hA
  cases c with
  | message m =>
    simp only [stepChoice] at h
    obtain rfl := Option.some.inj h
    have hpm := pm_conv_nil m (tick s.world) hc0
    refine ⟨ht, hpm.1, ?_, ?_⟩
    · rw [pm_personalizedSteps]; exact hps
    · intro hmem; exact hq (hpm.2.mp hmem)
  | deliverBasic env => exact absurd rfl (hc env)
  | deliverPers env =>
    simp only [stepChoice] at h
    rw [if_neg hq] at h
    exact Option.noConfusion h
  | advance i =>
    simp only [stepChoice] at h
    rw [ht] at h
    cases i <;> simp [advanceAt] at h

theorem schedInv_step (c : Choice) (s s' : Sys) (hI : SchedInv s)
    (hc : ∀ env, c ≠ Choice.deliverBasic env) (h : stepChoice c s = some s') :
    SchedInv s' := by
  rcases hI with hA | hB | hC
  · exact Or.inl (phaseA_step c s s' hA hc h)
  · obtain ⟨env, pc, hth, hpc, hcv, hps, hq, hcomp⟩ := hB
    cases c with
    | message m =>
      simp only [stepChoice] at h
      obtain rfl := Option.some.inj h
      have hpm := pm_conv_nil m (tick s.world) hcv
      refine Or.inr (Or.inl ⟨env, pc, hth, hpc, hpm.1, ?_, ?_, ?_⟩)
      · rw [pm_personalizedSteps]; exact hps
      · intro hmem; exact hq (hpm.2.mp hmem)
      · intro h5; rw [pm_basicSteps]; exact hcomp h5
    | deliverBasic env2 => exact absurd rfl (hc env2)
    | deliverPers env2 =>
      simp only [stepChoice] at h
      rw [if_neg hq] at h
      exact Option.noConfusion h
    | advance i =>
      simp only [stepChoice] at h
      rw [hth] at h
      cases i with
      | succ i =>
        simp only [advanceAt] at h
        exact Option.noConfusion h
      | zero =>
        simp only [advanceAt, stepThread] at h
        obtain rfl := Option.some.inj h
        interval_cases pc
        · -- block 0: ownership check
          cases henv : env.owner_ok with
          | true =>
            simp only [stepBasicWorker, henv, if_true, Option.map_some']
            exact Or.inr (Or.inl ⟨env, 1, rfl, by omega, hcv, hps, hq, by omega⟩)
          | false =>
            simp only [stepBasicWorker, henv, if_false, Option.map_none']
            exact Or.inl ⟨rfl, hcv, hps, hq⟩
        · -- block 1: set basic in_progress
          simp only [stepBasicWorker, Option.map_some']
          exact Or.inr (Or.inl ⟨env, 2, rfl, by omega, hcv, hps, hq, by omega⟩)
        · -- block 2: profile fetch
          cases hpr : (tick s.world).profile with
          | none =>
            simp only [stepBasicWorker, hpr, Option.map_none']
            exact Or.inl ⟨rfl, hcv, hps, hq⟩
          | some p =>
            simp only [stepBasicWorker, hpr, Option.map_some']
            exact Or.inr (Or.inl ⟨env, 3, rfl, by omega, hcv, hps, hq, by omega⟩)
        · -- block 3: persist generated tasks
          cases hpr : (tick s.world).profile with
          | none =>
            simp only [stepBasicWorker, hpr, Option.map_none']
            exact Or.inl ⟨rfl, hcv, hps, hq⟩
          | some p =>
            simp only [stepBasicWorker, hpr, Option.map_some']
            have hf := gbt_frame env.ai p (tick s.world)
            refine Or.inr (Or.inl ⟨env, 4, rfl, by omega, ?_, ?_, ?_, by omega⟩)
            · rw [hf.1]; exact hcv
            · rw [hf.2.2.1]; exact hps
            · rw [hf.2.2.2]; exact hq
        · -- block 4: set basic completed
          cases hpr : (tick s.world).profile with
          | none =>
            simp only [stepBasicWorker, hpr, Option.map_none']
            exact Or.inl ⟨rfl, hcv, hps, hq⟩
          | some p =>
            simp only [stepBasicWorker, hpr, Option.map_some']
            refine Or.inr (Or.inl ⟨env, 5, rfl, by omega, hcv, hps, hq, ?_⟩)
            intro _
            exact getStepStatus_set _ _ _ _ _
        · -- block 5: generate follow-up questions
          cases hpr : (tick s.world).profile with
          | none =>
            simp only [stepBasicWorker, hpr, Option.map_none']
            exact Or.inl ⟨rfl, hcv, hps, hq⟩
          | some p =>
            simp only [stepBasicWorker, hpr, Option.map_some']
            refine Or.inr (Or.inl ⟨env, 6, rfl, by omega, hcv, hps, hq, ?_⟩)
            intro _
            rw [gfq_basicSteps]
            exact hcomp (by omega)
        · -- block 6: read first question
          simp only [stepBasicWorker, Option.map_some']
          refine Or.inr (Or.inl ⟨env, 7, rfl, by omega, hcv, hps, hq, ?_⟩)
          intro _
          exact hcomp (by omega)
        · -- block 7: push summary
          simp only [stepBasicWorker, Option.map_some']
          refine Or.inr (Or.inl ⟨env, 8, rfl, by omega, hcv, hps, hq, ?_⟩)
          intro _
          exact hcomp (by omega)
        · -- block 8: set awaiting state, invocation ends
          simp only [stepBasicWorker, Option.map_none']
          refine Or.inr (Or.inr ⟨?_, ?_⟩)
          · rw [set_state_basicSteps]
            exact hcomp (by omega)
          · intro t ht
            exact absurd ht (List.not_mem_nil t)
  · obtain ⟨hbs, hth⟩ := hC
    cases c with
    | message m =>
      simp only [stepChoice] at h
      obtain rfl := Option.some.inj h
      refine Or.inr (Or.inr ⟨?_, hth⟩)
      rw [pm_basicSteps]
      exact hbs
    | deliverBasic env2 => exact absurd rfl (hc env2)
    | deliverPers env2 =>
      simp only [stepChoice] at h
      split at h
      · obtain rfl := Option.some.inj h
        refine Or.inr (Or.inr ⟨hbs, ?_⟩)
        intro t ht
        rcases List.mem_append.mp ht with h1 | h2
        · exact hth t h1
        · rw [List.mem_singleton.mp h2]
          exact ⟨env2, 0, rfl⟩
      · exact Option.noConfusion h
    | advance i =>
      simp only [stepChoice] at h
      cases hadv : advanceAt i s.threads (tick s.world) with
      | none =>
        rw [hadv] at h
        exact Option.noConfusion h
      | some q =>
        rw [hadv] at h
        obtain rfl := Option.some.inj h
        obtain ⟨hall, hbs2⟩ := advanceAt_pers i s.threads (tick s.world) hth q hadv
        refine Or.inr (Or.inr ⟨?_, hall⟩)
        rw [hbs2]
        exact hbs

theorem run_schedInv_zero :
    ∀ (cs : List Choice) (s s' : Sys), countBasicDeliveries cs = 0 →
      SchedInv s → run cs s = some s' → SchedInv s' := by
  intro cs
  induction cs with
  | nil =>
    intro s s' _ hI h
    obtain rfl := Option.some.inj h
    exact hI
  | cons c cs ih =>
    intro s s' h0 hI h
    have hc : ∀ env, c ≠ Choice.deliverBasic env := by
      intro env hce
      subst hce
      simp [countBasicDeliveries] at h0
    have h0' : countBasicDeliveries cs = 0 := by
      cases c <;> simp_all [countBasicDeliveries]
    unfold run at h
    cases hsc : stepChoice c s with
    | none => rw [hsc] at h; exact Option.noConfusion h
    | some s1 =>
      rw [hsc] at h
      exact ih s1 s' h0' (schedInv_step c s s1 hI hc hsc) h

theorem run_schedInv_from_A :
    ∀ (cs : List Choice) (s s' : Sys), countBasicDeliveries cs ≤ 1 →
      PhaseA s → run cs s = some s' → SchedInv s' := by
  intro cs
  induction cs with
  | nil =>
    intro s s' _ hA h
    obtain rfl := Option.some.inj h
    exact Or.inl hA
  | cons c cs ih =>
    intro s s' hle hA h
    unfold run at h
    cases hsc : stepChoice c s with
    | none => rw [hsc] at h; exact Option.noConfusion h
    | some s1 =>
      rw [hsc] at h
      by_cases hcb : ∃ env, c = Choice.deliverBasic env
      · obtain ⟨env, rfl⟩ := hcb
        have hB : PhaseB s1 := by
          simp only [stepChoice] at hsc
          split at hsc
          · obtain rfl := Option.some.inj hsc
            refine ⟨env, 0, ?_, by omega, hA.2.1, hA.2.2.1, hA.2.2.2, by omega⟩
            rw [hA.1]
            rfl
          · exact Option.noConfusion hsc
        have h0 : countBasicDeliveries cs = 0 := by
          simp only [countBasicDeliveries] at hle
          omega
        exact run_schedInv_zero cs s1 s' h0 (Or.inr (Or.inl hB)) h
      · have hc : ∀ env, c ≠ Choice.deliverBasic env := fun env hh => hcb ⟨env, hh⟩
        have hle' : countBasicDeliveries cs ≤ 1 := by
          cases c <;> simp_all [countBasicDeliveries]
        exact ih s1 s' hle' (phaseA_step c s s1 hA hc hsc) h

theorem schedInv_ordering (s : Sys) (h : SchedInv s) : pipelineOrdering s.world := by
  rcases h with hA | hB | hC
  · intro hip
    rw [hA.2.2.1] at hip
    exact absurd hip (by decide)
  · obtain ⟨env, pc, _, _, _, hps, _, _⟩ := hB
    intro hip
    rw [hps] at hip
    exact absurd hip (by decide)
  · exact fun _ => hC.1

/-- Claim C2 (amended): the claim as stated fails (see the counterexample:
the Personalized trigger never consults `should_start_personalized`, and an
at-least-once re-delivery of the Basic job puts `basic` back to
`in_progress` while a Personalized job runs).  What holds: for every
interleaving of calls in which the Basic job is delivered at most once,
`personalized` never reaches `in_progress` — not even transiently between
worker blocks — while `basic.status ≠ completed`. -/
theorem c2_ordering_single_delivery (cs : List Choice) (s : Sys)
    (hcount : countBasicDeliveries cs ≤ 1) (hrun : run cs initSys = some s) :
    pipelineOrdering s.world :=
  schedInv_ordering s
    (run_schedInv_from_A cs initSys s hcount ⟨rfl, rfl, rfl, by decide⟩ hrun)

/-- Witness for the amended C2: the single-delivery pipeline run
`happySchedule` stops just after the Personalized worker's `in_progress`
write; the theorem yields `basic = completed` there, matching evaluation. -/
theorem c2_ordering_single_delivery_witness :
    countBasicDeliveries happySchedule ≤ 1 ∧
    run happySchedule initSys = some c2HappySys ∧
    getStepStatus c2HappySys.world.personalizedSteps = some "in_progress" ∧
    getStepStatus c2HappySys.world.basicSteps = some "completed" := by
  have h1 : countBasicDeliveries happySchedule ≤ 1 := by decide
  have h2 : run happySchedule initSys = some c2HappySys := by decide
  have h3 : getStepStatus c2HappySys.world.personalizedSteps = some "in_progress" := by
    decide
  exact ⟨h1, h2, h3, c2_ordering_single_delivery happySchedule c2HappySys h1 h2 h3⟩
